import Mathlib

/-!
Verification of the L-system core of `Lsystems.py`: the string rewriter
(`LindIter`), the turtle-command encoder (`turtleGraph`) and the path
builder (`turtlePlot`), embedded shallowly in Lean 4.

Symbols are `Char`, symbol strings are `List Char`.  The rule table of a
system is a partial map `Char → Option (List Char)`, mirroring the Python
`dict` passed to `str.maketrans`: a symbol with no entry is left unchanged
by `str.translate`.  Real-valued geometry (angles, distances, headings)
uses `ℝ`.
-/

namespace Lsystems

/-- An L-system definition, one entry of the Python `LINDENMAYER_SYSTEMS`
dictionary: initial symbol, rule table, the three classification lists,
the geometric scale and the two turn angles. -/
structure LSys where
  init : Char
  rules : Char → Option (List Char)
  forward : List Char
  left : List Char
  right : List Char
  scale : ℝ
  leftAngle : ℝ
  rightAngle : ℝ

/-- The "Koch curve" entry of `LINDENMAYER_SYSTEMS`. -/
noncomputable def kochCurve : LSys where
  init := 'S'
  rules := fun c =>
    if c = 'S' then some "SLSRSLS".toList
    else if c = 'L' then some "L".toList
    else if c = 'R' then some "R".toList
    else none
  forward := ['S']
  left := ['L']
  right := ['R']
  scale := 3
  leftAngle := Real.pi / 3
  rightAngle := -(2 * Real.pi / 3)

/-- The "Sierpinski triangle" entry of `LINDENMAYER_SYSTEMS`. -/
noncomputable def sierpinskiTriangle : LSys where
  init := 'A'
  rules := fun c =>
    if c = 'A' then some "BRARB".toList
    else if c = 'B' then some "ALBLA".toList
    else if c = 'L' then some "L".toList
    else if c = 'R' then some "R".toList
    else none
  forward := ['A', 'B']
  left := ['L']
  right := ['R']
  scale := 2
  leftAngle := Real.pi / 3
  rightAngle := -(Real.pi / 3)

/-- The registry `LINDENMAYER_SYSTEMS`, a lookup from system name to
definition (`None` models a `KeyError`, the spec's `UnknownSystem`). -/
noncomputable def LINDENMAYER_SYSTEMS (name : String) : Option LSys :=
  if name = "Koch curve" then some kochCurve
  else if name = "Sierpinski triangle" then some sierpinskiTriangle
  else none

/-- `str.translate` with the table `str.maketrans(rules)`: each character
of the input string, in order, is looked up in the table; a character
with an entry is replaced by its replacement string, a character with no
entry is copied unchanged.  Replacements are emitted to the output and
never looked up again. -/
def translate (rules : Char → Option (List Char)) : List Char → List Char
  | [] => []
  | c :: rest => ((rules c).getD [c]) ++ translate rules rest

/-- `LindIter(system, N)`: start from the initial symbol and apply
`translate` with the system's rule table `N` times. -/
def LindIter (sys : LSys) : ℕ → List Char
  | 0 => [sys.init]
  | n + 1 => translate sys.rules (LindIter sys n)

/-- `LindIter` on a Python `int` iteration count: `for _ in range(N)`
executes `max N 0` times, so a negative `N` performs zero iterations. -/
def LindIterZ (sys : LSys) (N : ℤ) : List Char :=
  LindIter sys N.toNat

/-- A Koch-like definition whose rule table is missing the entries for
`'L'` and `'R'`: used to observe what the rewriter does to a symbol with
no rule. -/
noncomputable def kochMissingRules : LSys :=
  { kochCurve with rules := fun c => if c = 'S' then some "SLSRSLS".toList else none }

/-- Error raised by the encoder when the symbol string does not start
with a forward symbol (the `assert` in `turtleGraph`, the spec's
`InvalidStartSymbol`; an empty string fails on the index `[0]` itself). -/
inductive EncodeError where
  | invalidStartSymbol
deriving DecidableEq

/-- The accumulation loop of `turtleGraph`: walk the symbols after the
first one, appending `(length, leftAngle)` for a left symbol,
`(length, rightAngle)` for a right symbol, and nothing otherwise. -/
def turtleGraphLoop (sys : LSys) (length : ℝ) :
    List Char → List (ℝ × ℝ) → List (ℝ × ℝ)
  | [], acc => acc
  | symbol :: rest, acc =>
    if symbol ∈ sys.left then
      turtleGraphLoop sys length rest (acc ++ [(length, sys.leftAngle)])
    else if symbol ∈ sys.right then
      turtleGraphLoop sys length rest (acc ++ [(length, sys.rightAngle)])
    else
      turtleGraphLoop sys length rest acc

/-- `turtleGraph(lindenmayerString, system, N)`: the turtle-command
encoder.  `length = 1 / scale ** N` is fixed up front; the command list
starts as `[(length, 0)]`; the first symbol must be a forward symbol
(the `assert`, and the indexing `lindenmayerString[0]` fails on an
empty string); the remaining symbols are folded by `turtleGraphLoop`.
The Python flat row vector of alternating lengths and angles is modelled
as a list of `(length, angle)` pairs. -/
noncomputable def turtleGraph (sys : LSys) (lindenmayerString : List Char)
    (N : ℕ) : Except EncodeError (List (ℝ × ℝ)) :=
  let length : ℝ := 1 / sys.scale ^ N
  match lindenmayerString with
  | [] => .error .invalidStartSymbol
  | c :: rest =>
    if c ∈ sys.forward then
      .ok (turtleGraphLoop sys length rest [(length, 0)])
    else
      .error .invalidStartSymbol

/-- Per-symbol command emission as §4.2 of the spec words it: a left
symbol emits `(d, leftAngle)`, a right symbol `(d, rightAngle)`, any
other symbol nothing.  Used to state the refinement theorem for
`turtleGraph`. -/
def encodeSymbolSpec (sys : LSys) (d : ℝ) (symbol : Char) : List (ℝ × ℝ) :=
  if symbol ∈ sys.left then [(d, sys.leftAngle)]
  else if symbol ∈ sys.right then [(d, sys.rightAngle)]
  else []

/-- Rotation of a 2D vector by `angle`: the matrix
`[[cos a, -sin a], [sin a, cos a]]` applied to the vector (the `mod`
matrix and `np.dot` of `turtlePlot`). -/
noncomputable def rot (angle : ℝ) (v : ℝ × ℝ) : ℝ × ℝ :=
  (Real.cos angle * v.1 - Real.sin angle * v.2,
   Real.sin angle * v.1 + Real.cos angle * v.2)

/-- One step of the `turtlePlot` fold on the state `(d, x)` (heading,
position): rotate the heading by the command's angle, then advance the
position by `length` times the new heading. -/
noncomputable def turtleStep (s : (ℝ × ℝ) × (ℝ × ℝ)) (cmd : ℝ × ℝ) :
    (ℝ × ℝ) × (ℝ × ℝ) :=
  let d := rot cmd.2 s.1
  (d, (s.2.1 + cmd.1 * d.1, s.2.2 + cmd.1 * d.2))

/-- The loop of `turtlePlot`: for every `(length, angle)` pair advance
the state by `turtleStep` and append the new position to the `turtle`
array (`np.vstack`). -/
noncomputable def turtlePlotLoop :
    List (ℝ × ℝ) → (ℝ × ℝ) × (ℝ × ℝ) → List (ℝ × ℝ) → List (ℝ × ℝ)
  | [], _, acc => acc
  | cmd :: rest, s, acc =>
    turtlePlotLoop rest (turtleStep s cmd) (acc ++ [(turtleStep s cmd).2])

/-- `turtlePlot(turtleCommands, system)` up to the plotting calls: the
point array built from the commands, starting from heading `(1, 0)`,
position `(0, 0)` and the one-row array `[(0, 0)]`. -/
noncomputable def turtlePlot (commands : List (ℝ × ℝ)) : List (ℝ × ℝ) :=
  turtlePlotLoop commands ((1, 0), (0, 0)) [(0, 0)]

/-- The path as §4.3 of the spec words it: from heading `d` and position
`x`, each command rotates the heading, moves, and contributes the new
position; used to state the refinement theorem for `turtlePlot`. -/
noncomputable def pathSpec (d x : ℝ × ℝ) : List (ℝ × ℝ) → List (ℝ × ℝ)
  | [] => []
  | cmd :: rest =>
    let d2 := rot cmd.2 d
    let x2 := (x.1 + cmd.1 * d2.1, x.2 + cmd.1 * d2.2)
    x2 :: pathSpec d2 x2 rest

theorem translate_append (rules : Char → Option (List Char)) (s t : List Char) :
    translate rules (s ++ t) = translate rules s ++ translate rules t := by
  induction s with
  | nil => rfl
  | cons c rest ih => simp [translate, ih]

theorem translate_eq_flatten (rules : Char → Option (List Char)) (s : List Char) :
    translate rules s = (s.map (fun c => (rules c).getD [c])).flatten := by
  induction s with
  | nil => rfl
  | cons c rest ih => simp [translate, ih]

theorem translate_length (rules : Char → Option (List Char)) (s : List Char) :
    (translate rules s).length = (s.map (fun c => ((rules c).getD [c]).length)).sum := by
  induction s with
  | nil => rfl
  | cons c rest ih => simp [translate, ih]

theorem turtleGraphLoop_eq (sys : LSys) (d : ℝ) (s : List Char)
    (acc : List (ℝ × ℝ)) :
    turtleGraphLoop sys d s acc = acc ++ s.flatMap (encodeSymbolSpec sys d) := by
  induction s generalizing acc with
  | nil => simp [turtleGraphLoop]
  | cons symbol rest ih =>
    by_cases hl : symbol ∈ sys.left
    · simp [turtleGraphLoop, hl, ih, encodeSymbolSpec]
    · by_cases hr : symbol ∈ sys.right
      · simp [turtleGraphLoop, hl, hr, ih, encodeSymbolSpec]
      · simp [turtleGraphLoop, hl, hr, ih, encodeSymbolSpec]

theorem one_div_pow_eq_zpow_neg (a : ℝ) (N : ℕ) :
    (1 : ℝ) / a ^ N = a ^ (-(N : ℤ)) := by
  rw [zpow_neg, zpow_natCast, one_div]

theorem turtlePlotLoop_eq_pathSpec (cmds : List (ℝ × ℝ))
    (s : (ℝ × ℝ) × (ℝ × ℝ)) (acc : List (ℝ × ℝ)) :
    turtlePlotLoop cmds s acc = acc ++ pathSpec s.1 s.2 cmds := by
  induction cmds generalizing s acc with
  | nil => simp [turtlePlotLoop, pathSpec]
  | cons cmd rest ih =>
    simp only [turtlePlotLoop, ih, pathSpec, turtleStep, List.append_assoc,
      List.singleton_append]

theorem pathSpec_length (cmds : List (ℝ × ℝ)) (d x : ℝ × ℝ) :
    (pathSpec d x cmds).length = cmds.length := by
  induction cmds generalizing d x with
  | nil => rfl
  | cons cmd rest ih => simp [pathSpec, ih]

theorem turtlePlotLoop_append (pre suf : List (ℝ × ℝ))
    (s : (ℝ × ℝ) × (ℝ × ℝ)) (acc : List (ℝ × ℝ)) :
    turtlePlotLoop (pre ++ suf) s acc =
      turtlePlotLoop suf (pre.foldl turtleStep s) (turtlePlotLoop pre s acc) := by
  induction pre generalizing s acc with
  | nil => simp [turtlePlotLoop]
  | cons cmd rest ih => simp [turtlePlotLoop, ih]

theorem rot_sq_norm (angle : ℝ) (v : ℝ × ℝ) (h : v.1 ^ 2 + v.2 ^ 2 = 1) :
    (rot angle v).1 ^ 2 + (rot angle v).2 ^ 2 = 1 := by
  have hsc := Real.sin_sq_add_cos_sq angle
  simp only [rot]
  nlinarith [hsc, h]

theorem foldl_turtleStep_heading (l : List (ℝ × ℝ)) (s : (ℝ × ℝ) × (ℝ × ℝ))
    (h : s.1.1 ^ 2 + s.1.2 ^ 2 = 1) :
    ((l.foldl turtleStep s).1.1) ^ 2 + ((l.foldl turtleStep s).1.2) ^ 2 = 1 := by
  induction l generalizing s with
  | nil => exact h
  | cons cmd rest ih =>
    simp only [List.foldl_cons]
    exact ih _ (rot_sq_norm cmd.2 s.1 h)

/-- C1: one generation of the rewriter maps the string `s` from before the
generation to the concatenation, in order, of the replacement of each
symbol of `s`; replacements are substituted simultaneously — the output is
assembled from independent per-symbol lookups on the old string, so a
substring introduced during a generation is never itself rewritten within
that generation (rewriting a concatenation rewrites the parts
independently). -/
theorem lindIter_parallel_step (sys : LSys) (n : ℕ) :
    LindIter sys (n + 1) =
      ((LindIter sys n).map (fun c => (sys.rules c).getD [c])).flatten ∧
    ∀ s t : List Char,
      translate sys.rules (s ++ t) =
        translate sys.rules s ++ translate sys.rules t :=
  ⟨translate_eq_flatten sys.rules (LindIter sys n),
   fun s t => translate_append sys.rules s t⟩

/-- C2: the rewriter reproduces the listed concrete vectors for the two
registered systems: Koch curve at N = 0, 1, 2 and Sierpinski triangle at
N = 0, 1, 2, 3. -/
theorem lindIter_concrete_vectors :
    LindIter kochCurve 0 = "S".toList ∧
    LindIter kochCurve 1 = "SLSRSLS".toList ∧
    LindIter kochCurve 2 = "SLSRSLSLSLSRSLSRSLSRSLSLSLSRSLS".toList ∧
    LindIter sierpinskiTriangle 0 = "A".toList ∧
    LindIter sierpinskiTriangle 1 = "BRARB".toList ∧
    LindIter sierpinskiTriangle 2 = "ALBLARBRARBRALBLA".toList ∧
    LindIter sierpinskiTriangle 3 =
      "BRARBLALBLALBRARBRALBLARBRARBRALBLARBRARBLALBLALBRARB".toList := by
  refine ⟨by decide, by decide, by decide, by decide, by decide, by decide, by decide⟩

/-- C3: on a non-empty string whose first symbol is a forward symbol, the
encoder returns exactly a first command `(d, 0)` with `d = scale ^ -N`,
followed, for each later symbol in order, by `(d, leftAngle)` for a left
symbol, `(d, rightAngle)` for a right symbol and nothing for a forward or
unclassified symbol; every emitted command carries the same distance
`scale ^ -N`. -/
theorem turtleGraph_ok_spec (sys : LSys) (N : ℕ) (c : Char) (rest : List Char)
    (h : c ∈ sys.forward) :
    turtleGraph sys (c :: rest) N =
      .ok ((sys.scale ^ (-(N : ℤ)), 0) ::
        rest.flatMap (encodeSymbolSpec sys (sys.scale ^ (-(N : ℤ))))) ∧
    ∀ cmd ∈ (sys.scale ^ (-(N : ℤ)), (0 : ℝ)) ::
        rest.flatMap (encodeSymbolSpec sys (sys.scale ^ (-(N : ℤ)))),
      cmd.1 = sys.scale ^ (-(N : ℤ)) := by
  constructor
  · simp only [turtleGraph, h, if_pos]
    rw [turtleGraphLoop_eq, one_div_pow_eq_zpow_neg]
    simp
  · intro cmd hmem
    rcases List.mem_cons.1 hmem with h1 | h2
    · rw [h1]
    · obtain ⟨x, _, hx⟩ := List.mem_flatMap.1 h2
      unfold encodeSymbolSpec at hx
      split_ifs at hx <;> simp at hx <;> rw [hx] <;>
        simp [zpow_neg, zpow_natCast]

/-- Witness for C3: the Koch curve at the string "SL" and N = 0. -/
theorem turtleGraph_ok_spec_app :
    'S' ∈ kochCurve.forward ∧
    (turtleGraph kochCurve ('S' :: ['L']) 0 =
      .ok ((kochCurve.scale ^ (-(0 : ℕ) : ℤ), 0) ::
        ['L'].flatMap (encodeSymbolSpec kochCurve (kochCurve.scale ^ (-(0 : ℕ) : ℤ)))) ∧
    ∀ cmd ∈ (kochCurve.scale ^ (-(0 : ℕ) : ℤ), (0 : ℝ)) ::
        ['L'].flatMap (encodeSymbolSpec kochCurve (kochCurve.scale ^ (-(0 : ℕ) : ℤ))),
      cmd.1 = kochCurve.scale ^ (-(0 : ℕ) : ℤ)) :=
  ⟨by decide, turtleGraph_ok_spec kochCurve 0 'S' ['L'] (by decide)⟩

/-- C4: the path builder starts from position `(0, 0)` and heading
`(1, 0)`; each command rotates the heading by the command's angle with
the standard rotation matrix, then advances the position by the command's
distance along the new heading and appends the new position; the output
has one point per command after the starting point `(0, 0)`. -/
theorem turtlePlot_spec (commands : List (ℝ × ℝ)) :
    turtlePlot commands = (0, 0) :: pathSpec (1, 0) (0, 0) commands ∧
    (turtlePlot commands).length = commands.length + 1 ∧
    (turtlePlot commands).head? = some (0, 0) := by
  have h : turtlePlot commands = (0, 0) :: pathSpec (1, 0) (0, 0) commands := by
    rw [turtlePlot, turtlePlotLoop_eq_pathSpec]
    rfl
  refine ⟨h, ?_, ?_⟩
  · rw [h]
    simp [pathSpec_length]
  · rw [h]
    rfl

/-- Counterexample to C5: in `kochMissingRules` the symbol 'L' has no
rule entry, it occurs in the string at generation 1, and generation 2 is
still produced — the rewriter leaves 'L' in place instead of failing. -/
theorem undefinedSymbol_silently_kept :
    kochMissingRules.rules 'L' = none ∧
    'L' ∈ LindIter kochMissingRules 1 ∧
    LindIter kochMissingRules 2 = "SLSRSLSLSLSRSLSRSLSRSLSLSLSRSLS".toList :=
  ⟨by decide, by decide, by decide⟩

/-- C5 amended: a symbol with no entry in the rule table is left in place
unchanged by the rewriting step (`str.translate` copies unmapped
characters), with rewriting proceeding normally on the symbols around
it; no error is raised. -/
theorem translate_keeps_unmapped (sys : LSys) (s t : List Char) (c : Char)
    (h : sys.rules c = none) :
    translate sys.rules (s ++ c :: t) =
      translate sys.rules s ++ c :: translate sys.rules t := by
  rw [translate_append]
  simp [translate, h]

/-- Witness for C5 amended: `kochMissingRules` on the string "SLR". -/
theorem translate_keeps_unmapped_app :
    kochMissingRules.rules 'L' = none ∧
    translate kochMissingRules.rules (['S'] ++ 'L' :: ['R']) =
      translate kochMissingRules.rules ['S'] ++
        'L' :: translate kochMissingRules.rules ['R'] :=
  ⟨by decide, translate_keeps_unmapped kochMissingRules ['S'] ['R'] 'L' (by decide)⟩

/-- C6: the encoder fails with `InvalidStartSymbol` on the empty string
and on any string whose first symbol is not a forward symbol, emitting no
commands. -/
theorem turtleGraph_invalid_start (sys : LSys) (N : ℕ) :
    turtleGraph sys [] N = .error .invalidStartSymbol ∧
    ∀ (c : Char) (rest : List Char), c ∉ sys.forward →
      turtleGraph sys (c :: rest) N = .error .invalidStartSymbol := by
  refine ⟨rfl, fun c rest h => ?_⟩
  simp [turtleGraph, h]

/-- Witness for C6: the Sierpinski triangle on the string "S", whose
first symbol is not one of its forward symbols. -/
theorem turtleGraph_invalid_start_app :
    'S' ∉ sierpinskiTriangle.forward ∧
    turtleGraph sierpinskiTriangle ('S' :: []) 0 = .error .invalidStartSymbol :=
  ⟨by decide, (turtleGraph_invalid_start sierpinskiTriangle 0).2 'S' [] (by decide)⟩

/-- C7: for a definition whose rule table covers every symbol of the
string at generation N, the length of the string at generation N + 1 is
the sum, over the symbols of generation N, of the lengths of their rule
replacements. -/
theorem lindIter_growth (sys : LSys) (n : ℕ)
    (h : ∀ c ∈ LindIter sys n, (sys.rules c).isSome) :
    (LindIter sys (n + 1)).length =
      ((LindIter sys n).map (fun c => ((sys.rules c).getD []).length)).sum := by
  show (translate sys.rules (LindIter sys n)).length = _
  rw [translate_length]
  congr 1
  refine List.map_congr_left (fun c hc => ?_)
  rcases Option.isSome_iff_exists.1 (h c hc) with ⟨r, hr⟩
  rw [hr]
  rfl

/-- Witness for C7: the Koch curve from generation 1 to generation 2. -/
theorem lindIter_growth_app :
    (∀ c ∈ LindIter kochCurve 1, (kochCurve.rules c).isSome) ∧
    (LindIter kochCurve 2).length =
      ((LindIter kochCurve 1).map
        (fun c => ((kochCurve.rules c).getD []).length)).sum :=
  ⟨by decide, lindIter_growth kochCurve 1 (by decide)⟩

/-- C8: after processing any first part of a command sequence, the path
builder's fold has reached exactly the state obtained by folding
`turtleStep` over the commands processed so far, and the heading
component of that state has unit norm, because each step rotates the
heading by an orthonormal rotation matrix. -/
theorem heading_unit_norm (commands pre suf : List (ℝ × ℝ))
    (h : commands = pre ++ suf) :
    turtlePlot commands =
      turtlePlotLoop suf (pre.foldl turtleStep ((1, 0), (0, 0))) (turtlePlot pre) ∧
    ((pre.foldl turtleStep ((1, 0), (0, 0))).1.1) ^ 2 +
      ((pre.foldl turtleStep ((1, 0), (0, 0))).1.2) ^ 2 = 1 := by
  constructor
  · rw [h, turtlePlot, turtlePlotLoop_append]
    rfl
  · exact foldl_turtleStep_heading pre ((1, 0), (0, 0)) (by norm_num)

/-- Witness for C8: the command list `[(1, 0)]` split after its single
command. -/
theorem heading_unit_norm_app :
    [((1 : ℝ), (0 : ℝ))] = [((1 : ℝ), (0 : ℝ))] ++ [] ∧
    (turtlePlot [((1 : ℝ), (0 : ℝ))] =
      turtlePlotLoop [] ([((1 : ℝ), (0 : ℝ))].foldl turtleStep ((1, 0), (0, 0)))
        (turtlePlot [((1 : ℝ), (0 : ℝ))]) ∧
    (([((1 : ℝ), (0 : ℝ))].foldl turtleStep ((1, 0), (0, 0))).1.1) ^ 2 +
      (([((1 : ℝ), (0 : ℝ))].foldl turtleStep ((1, 0), (0, 0))).1.2) ^ 2 = 1) :=
  ⟨by simp, heading_unit_norm [((1 : ℝ), (0 : ℝ))] [((1 : ℝ), (0 : ℝ))] [] (by simp)⟩

/-- Counterexample to C9: at N = -1 the Koch curve rewriter returns the
output string "S" — the `for` loop over `range(N)` simply runs zero
times, no `InvalidIteration` error exists in the core. -/
theorem negative_iter_produces_output :
    LindIterZ kochCurve (-1) = "S".toList := by
  decide

/-- C9 amended: for every system and every negative iteration count the
core performs zero rewriting steps and returns the initial symbol
unchanged; range checking happens only in the excluded menu layer. -/
theorem lindIterZ_neg (sys : LSys) (N : ℤ) (h : N < 0) :
    LindIterZ sys N = [sys.init] := by
  unfold LindIterZ
  rw [Int.toNat_of_nonpos (le_of_lt h)]
  rfl

/-- Witness for C9 amended: the Sierpinski triangle at N = -2. -/
theorem lindIterZ_neg_app :
    (-2 : ℤ) < 0 ∧ LindIterZ sierpinskiTriangle (-2) = [sierpinskiTriangle.init] :=
  ⟨by decide, lindIterZ_neg sierpinskiTriangle (-2) (by decide)⟩

/-- C10: every definition registered in `LINDENMAYER_SYSTEMS` rewrites to
exactly its initial symbol at N = 0. -/
theorem lindIter_zero_init (name : String) (sys : LSys)
    (_h : LINDENMAYER_SYSTEMS name = some sys) :
    LindIter sys 0 = [sys.init] :=
  rfl

/-- Witness for C10: the registered Koch curve at N = 0. -/
theorem lindIter_zero_init_app :
    LINDENMAYER_SYSTEMS "Koch curve" = some kochCurve ∧
    LindIter kochCurve 0 = [kochCurve.init] :=
  ⟨rfl, lindIter_zero_init "Koch curve" kochCurve rfl⟩

end Lsystems
